import Mathlib

/-!
# Verification of the InvokeAI `ModelManager` (model registry) core

A shallow embedding, in Lean 4, of the registry logic of
`invokeai/backend/model_management/model_manager.py`: the key codec, the
legacy-checkpoint probe, the conversion cache, the VAE tier resolution, the
schema migrator, `set_default_model`, `del_model`, the directory reconciler
and the dispatch of `heuristic_import`.  Python dictionaries are modelled as
association lists with unique keys, the file system as an explicit value,
and Python exceptions as `Except`.
-/

set_option autoImplicit false

namespace InvokeAI

/-! ## String and path helpers (Python `str` / `pathlib` operations) -/

/-- Python `s.split('/', 1)` viewed on the character list: split at the first
`'/'`, returning the parts before and after it, or `none` when there is no
`'/'` (in which case the 2-tuple unpacking in the source raises). -/
def splitFirstSlash : List Char → Option (List Char × List Char)
  | [] => none
  | c :: cs =>
    if c = '/' then some ([], cs)
    else (splitFirstSlash cs).map (fun pr => (c :: pr.1, pr.2))

/-- Python `s.startswith(pre)`, by structural recursion on the characters. -/
def strStartsWith (s pre : String) : Bool := pre.data.isPrefixOf s.data

/-- Python `s.endswith(suf)`, by structural recursion on the characters. -/
def strEndsWith (s suf : String) : Bool := suf.data.isSuffixOf s.data

/-- Split a character list at every occurrence of `c` (Python `s.split(c)`):
`"a//b"` gives `["a", "", "b"]`, a separator-free string gives itself. -/
def splitOnCharAux (c : Char) : List Char → List Char → List (List Char)
  | [], acc => [acc.reverse]
  | x :: xs, acc =>
    if x = c then acc.reverse :: splitOnCharAux c xs []
    else splitOnCharAux c xs (x :: acc)

/-- Python `s.split(c)` for a one-character separator. -/
def splitOnChar (s : String) (c : Char) : List String :=
  (splitOnCharAux c s.data []).map String.mk

/-- Join strings with a one-character separator (inverse of `splitOnChar`). -/
def joinChar (c : Char) : List String → String
  | [] => ""
  | [s] => s
  | s :: rest => s ++ String.mk [c] ++ joinChar c rest

/-- Python `os.path.join(a, b)` / `pathlib`'s `a / b` for the cases arising in
the source: an absolute right operand wins, an empty left operand disappears. -/
def osJoin (a b : String) : String :=
  if strStartsWith b "/" then b
  else if a = "" then b
  else a ++ "/" ++ b

/-- The final path component, as in `pathlib.PurePath.name`. -/
def pathBasename (p : String) : String :=
  (splitOnChar p '/').getLastD p

/-- Split a file name into `(stem, suffix)` following `pathlib`: the suffix is
the part from the last `'.'` on, and is empty when the last `'.'` is the first
or the last character of the name. -/
def lastDotSplit (b : String) : String × String :=
  let cs := b.data
  match (cs.reverse.takeWhile (fun c => c ≠ '.')).length, cs.contains '.' with
  | k, true =>
    let i := cs.length - 1 - k
    if 0 < i ∧ i < cs.length - 1 then (⟨cs.take i⟩, ⟨cs.drop i⟩) else (b, "")
  | _, false => (b, "")

/-- `pathlib.PurePath.stem`: final component without its last suffix. -/
def pathStem (p : String) : String := (lastDotSplit (pathBasename p)).1

/-- `pathlib.PurePath.suffix` of the final component (with the dot). -/
def pathSuffix (p : String) : String := (lastDotSplit (pathBasename p)).2

/-- `pathlib.PurePath.with_suffix`: replace the last suffix of the final
component with `sfx`. -/
def withSuffix (p sfx : String) : String :=
  let parts := splitOnChar p '/'
  joinChar '/' (parts.dropLast ++ [(lastDotSplit (parts.getLastD p)).1 ++ sfx])

/-- Python substring test `pat in s`, on character lists. -/
def listInfixOf (pat : List Char) : List Char → Bool
  | [] => pat.isEmpty
  | c :: cs => pat.isPrefixOf (c :: cs) || listInfixOf pat cs

/-- Python substring test `pat in s` for strings. -/
def strContains (s pat : String) : Bool := listInfixOf pat.data s.data

/-! ## The model-type enumeration

Modelled from the spec: the `SDModelType` enumeration itself lives in
`model_cache.py`, which is not part of the sources at hand; the spec (§3) and
the module docstring of `model_manager.py` give its closed set of values
`{diffusers, ckpt, vae, text_encoder, tokenizer, unet, scheduler,
safety_checker, feature_extractor, lora, textual_inversion, controlnet}`,
with the string value used both when formatting a key (`f"{model_type}"`)
and when looking a value up (`SDModelType(model_type_str)`). -/

inductive SDModelType where
  | diffusers | ckpt | vae | text_encoder | tokenizer | unet | scheduler
  | safety_checker | feature_extractor | lora | textual_inversion | controlnet
  deriving DecidableEq, BEq, Repr

/-- Modelled from the spec: the string value of each `SDModelType` member,
i.e. what `f"{model_type}"` interpolates. -/
def sdModelTypeStr : SDModelType → String
  | .diffusers => "diffusers"
  | .ckpt => "ckpt"
  | .vae => "vae"
  | .text_encoder => "text_encoder"
  | .tokenizer => "tokenizer"
  | .unet => "unet"
  | .scheduler => "scheduler"
  | .safety_checker => "safety_checker"
  | .feature_extractor => "feature_extractor"
  | .lora => "lora"
  | .textual_inversion => "textual_inversion"
  | .controlnet => "controlnet"

/-- Modelled from the spec: value lookup `SDModelType(s)`, `none` when `s` is
not the string value of any member (the Python constructor raises). -/
def sdModelTypeOfString (s : String) : Option SDModelType :=
  if s = "diffusers" then some .diffusers
  else if s = "ckpt" then some .ckpt
  else if s = "vae" then some .vae
  else if s = "text_encoder" then some .text_encoder
  else if s = "tokenizer" then some .tokenizer
  else if s = "unet" then some .unet
  else if s = "scheduler" then some .scheduler
  else if s = "safety_checker" then some .safety_checker
  else if s = "feature_extractor" then some .feature_extractor
  else if s = "lora" then some .lora
  else if s = "textual_inversion" then some .textual_inversion
  else if s = "controlnet" then some .controlnet
  else none

/-! ## Key codec (`create_key` / `parse_key`) -/

/-- `ModelManager.create_key`: `f"{model_type}/{model_name}"`. -/
def create_key (model_name : String) (model_type : SDModelType) : String :=
  sdModelTypeStr model_type ++ "/" ++ model_name

/-- `ModelManager.parse_key`: split on the first `'/'`, then look the prefix
up in the enumeration.  A key without `'/'` raises (`ValueError` from the
tuple unpacking); an unrecognised prefix raises
`Exception("Unknown model type: ...")`. -/
def parse_key (model_key : String) : Except String (String × SDModelType) :=
  match splitFirstSlash model_key.data with
  | none => .error "ValueError: not enough values to unpack"
  | some (pre, suf) =>
    match sdModelTypeOfString (String.mk pre) with
    | some t => .ok (String.mk suf, t)
    | none => .error ("Unknown model type: " ++ String.mk pre)

/-! ## The persisted store (`models.yaml` / OmegaConf)

A stanza is a Python dict from field names to values; the whole config maps
stanza keys to stanzas (plus the top-level `_version` string).  Python dicts
have unique keys; the `Nodup` hypotheses in the theorems record that. -/

/-- A field value inside a model stanza.  `fdict` models a nested
string-valued mapping (the structured `vae` field); `fnone` models `None`. -/
inductive FieldVal where
  | str (s : String)
  | fbool (b : Bool)
  | fnone
  | fdict (entries : List (String × String))
  deriving DecidableEq, BEq, Repr

/-- Python truthiness of a field value (`if value:`). -/
def FieldVal.truthy : FieldVal → Bool
  | .str s => s ≠ ""
  | .fbool b => b
  | .fnone => false
  | .fdict l => l ≠ []

/-- A model stanza: field name ↦ value. -/
abbrev Stanza := List (String × FieldVal)

/-- A top-level config value: the `_version` tag is a plain string, every
model entry is a stanza (`DictConfig`). -/
inductive ConfigVal where
  | cstr (s : String)
  | stanza (st : Stanza)
  deriving DecidableEq, BEq, Repr

/-- The in-memory store: stanza key ↦ value. -/
abbrev Config := List (String × ConfigVal)

/-- First-match lookup (Python dict indexing; keys are unique). -/
def lookupVal (cfg : Config) (key : String) : Option ConfigVal :=
  (cfg.find? (fun kv => kv.1 == key)).map Prod.snd

/-- Field lookup inside a stanza (`stanza.get(field)`). -/
def lookupField (st : Stanza) (field : String) : Option FieldVal :=
  (st.find? (fun fv => fv.1 == field)).map Prod.snd

/-- `stanza.get(field)` followed by a truthiness test, as in the walrus
patterns `if field_value := old_stanza.get(field)`. -/
def truthyField (st : Stanza) (field : String) : Option FieldVal :=
  match lookupField st field with
  | some v => if v.truthy then some v else none
  | none => none

/-- Lookup in a plain string-valued mapping (`vae_config.get(...)`). -/
def dictGet (l : List (String × String)) (k : String) : Option String :=
  (l.find? (fun kv => kv.1 == k)).map Prod.snd

/-- Dict assignment `config[key] = v`: replace the existing entry, else
append a new one. -/
def dictSet (cfg : Config) (key : String) (v : ConfigVal) : Config :=
  if cfg.any (fun kv => kv.1 == key) then
    cfg.map (fun kv => if kv.1 == key then (key, v) else kv)
  else cfg ++ [(key, v)]

/-- Field assignment `stanza[field] = v`. -/
def stanzaSet (st : Stanza) (field : String) (v : FieldVal) : Stanza :=
  if st.any (fun fv => fv.1 == field) then
    st.map (fun fv => if fv.1 == field then (field, v) else fv)
  else st ++ [(field, v)]

/-- `stanza.pop(field, None)`: drop the field (keys being unique, dropping
every occurrence coincides with popping the one entry). -/
def stanzaPop (st : Stanza) (field : String) : Stanza :=
  st.filter (fun fv => fv.1 ≠ field)

/-- The per-entry effect of `config[key].pop(field, None)`. -/
def popFieldEntry (key field : String) (kv : String × ConfigVal) :
    String × ConfigVal :=
  if kv.1 == key then
    (kv.1, match kv.2 with
           | .stanza st => .stanza (stanzaPop st field)
           | v => v)
  else kv

/-- `config[key].pop(field, None)` for the one entry named `key` (the source
only applies it to keys whose value is a stanza; a non-stanza value is left
unchanged here, which agrees with the source on unique-key stores). -/
def popStanzaField (cfg : Config) (key field : String) : Config :=
  cfg.map (popFieldEntry key field)

/-- The per-entry effect of `config[key][field] = v`. -/
def setFieldEntry (key field : String) (v : FieldVal) (kv : String × ConfigVal) :
    String × ConfigVal :=
  if kv.1 == key then
    (kv.1, match kv.2 with
           | .stanza st => .stanza (stanzaSet st field v)
           | w => w)
  else kv

/-- `config[key][field] = v`: raises when the key is absent (`KeyError`) or
its value is not a mapping (`TypeError`). -/
def setStanzaField (cfg : Config) (key field : String) (v : FieldVal) :
    Except String Config :=
  match lookupVal cfg key with
  | some (.stanza _) => .ok (cfg.map (setFieldEntry key field v))
  | some (.cstr _) => .error "TypeError: str does not support item assignment"
  | none => .error "KeyError"

/-- `mapM` over `Except` by structural recursion (the list comprehension
`[parse_key x for x in ...]`, where any element may raise). -/
def mapExcept {α β ε : Type} (f : α → Except ε β) : List α → Except ε (List β)
  | [] => .ok []
  | x :: xs => do
    let y ← f x
    let ys ← mapExcept f xs
    .ok (y :: ys)

/-! ## File system model

Only existence tests and (for the reconciler) a directory walk are consumed
from the OS.  `PathFS` is the flat oracle used by the converter cache and the
VAE resolution; `FSNode` is the tree walked by `scan_models_directory`. -/

/-- Existing paths, split into files and directories. -/
structure PathFS where
  files : List String
  dirs : List String
  deriving DecidableEq, Repr

/-- `Path(p).exists()`. -/
def PathFS.existsPath (fs : PathFS) (p : String) : Bool :=
  fs.files.contains p || fs.dirs.contains p

/-- `Path(p).is_file()`. -/
def PathFS.isFile (fs : PathFS) (p : String) : Bool := fs.files.contains p

/-- `Path(p).is_dir()`. -/
def PathFS.isDir (fs : PathFS) (p : String) : Bool := fs.dirs.contains p

/-- The effect of a successful `convert_ckpt_to_diffusers` run: the target
directory now exists (§6: the converter "writes target_path or raises"). -/
def PathFS.addDir (fs : PathFS) (p : String) : PathFS :=
  { fs with dirs := p :: fs.dirs }

/-- The global app configuration consumed by the manager (spec §9): the root
directory, the converted-artifacts root and the models directory. -/
structure Globals where
  rootDir : String
  convertedCkptsDir : String
  modelsPath : String
  deriving DecidableEq, Repr

/-! ## Legacy probe (`probe_model_type`) -/

/-- The two Python exception kinds distinguished by the probe's `try` block:
`except KeyError` is caught, an `IndexError` from `shape[-1]` / `shape[1]`
is not. -/
inductive PyErr where
  | keyError
  | indexError
  deriving DecidableEq, Repr

/-- The legacy-checkpoint classification. -/
inductive SDLegacyType where
  | V1 | V1_INPAINT | V2 | V2_e | V2_v | UNKNOWN
  deriving DecidableEq, BEq, Repr

/-- A loaded checkpoint as the probe consumes it: the optional
`global_step` entry, the optional `state_dict` sub-dict, and the tensors
(represented by their shapes) living at top level. -/
structure Checkpoint where
  global_step : Option Int
  state_dict : Option (List (String × List Nat))
  tensors : List (String × List Nat)
  deriving DecidableEq, Repr

/-- `checkpoint.get("state_dict") or checkpoint`: an absent or empty (falsy)
`state_dict` falls back to the checkpoint itself. -/
def effectiveStateDict (cp : Checkpoint) : List (String × List Nat) :=
  match cp.state_dict with
  | some sd => if sd.isEmpty then cp.tensors else sd
  | none => cp.tensors

/-- Tensor lookup by key. -/
def lookupShape (sd : List (String × List Nat)) (k : String) : Option (List Nat) :=
  (sd.find? (fun kv => kv.1 == k)).map Prod.snd

/-- The well-known cross-attention tensor probed for the V2 family. -/
def attnKeyName : String :=
  "model.diffusion_model.input_blocks.2.1.transformer_blocks.0.attn2.to_k.weight"

/-- The first convolution probed for the V1 input-channel count. -/
def firstConvKeyName : String := "model.diffusion_model.input_blocks.0.0.weight"

/-- The V1 fallback of the probe: `state_dict[...].shape[1]`; a missing key
raises `KeyError`, a shape without index 1 raises `IndexError`. -/
def probeV1Branch (sd : List (String × List Nat)) : Except PyErr SDLegacyType :=
  match lookupShape sd firstConvKeyName with
  | none => .error .keyError
  | some shape =>
    match shape.get? 1 with
    | none => .error .indexError
    | some in_channels =>
      if in_channels = 9 then .ok .V1_INPAINT
      else if in_channels = 4 then .ok .V1
      else .ok .UNKNOWN

/-- `ModelManager.probe_model_type`: classify a legacy checkpoint from its
tensor shapes and `global_step`; the surrounding `try` turns a `KeyError`
into `UNKNOWN` (and only a `KeyError`). -/
def probe_model_type (cp : Checkpoint) : Except PyErr SDLegacyType :=
  let global_step := cp.global_step
  let sd := effectiveStateDict cp
  let inner : Except PyErr SDLegacyType :=
    match lookupShape sd attnKeyName with
    | some shape =>
      match shape.getLast? with
      | none => .error .indexError
      | some d =>
        if d = 1024 then
          .ok (if global_step = some 220000 then .V2_e
               else if global_step = some 110000 then .V2_v
               else .V2)
        else probeV1Branch sd
    | none => probeV1Branch sd
  match inner with
  | .error .keyError => .ok .UNKNOWN
  | r => r

/-! ## Conversion cache and VAE tier resolution -/

/-- A VAE object loaded via the external Model Cache, identified by the
location it was loaded from (`self.cache.get_model(location, Vae).model`). -/
structure LoadedVae where
  location : String
  deriving DecidableEq, Repr

/-- The checkpoint stanza as `convert_ckpt_and_cache` consumes it:
`mconfig.weights` and `mconfig.config` are required attribute accesses,
`mconfig.get('vae')` is optional. -/
structure CkptConfig where
  weights : String
  config : String
  vaeField : Option FieldVal
  deriving DecidableEq, Repr

/-- The sibling-file scan of `_get_vae_for_conversion` step 1: the loop over
`["pt", "ckpt", "safetensors"]` has no `break`, so the last existing
`<stem>.vae.<suffix>` sibling wins. -/
def siblingVaePath (fs : PathFS) (weights : String) : Option String :=
  ["pt", "ckpt", "safetensors"].foldl
    (fun acc sfx =>
      if fs.existsPath (withSuffix weights (".vae." ++ sfx)) then
        some (withSuffix weights (".vae." ++ sfx))
      else acc)
    none

/-- The fixed public fallback VAE (step 4 of the resolution). -/
def defaultVaeRepo : String := "stabilityai/sd-vae-ft-mse"

/-- `ModelManager._get_vae_for_conversion`: resolve the auxiliary VAE for a
conversion, returning `(vae_ckpt_path, vae_model)`.  Tier 1: a sibling
`.vae.*` file; tier 2: a string-valued `vae` field; tier 3: a dict-valued
`vae` field resolved through the Model Cache; tier 4: the fixed public VAE.
The final `if vae_diffusers_location:` truthiness test turns an empty
location into `(None, None)`. -/
def get_vae_for_conversion (g : Globals) (fs : PathFS) (weights : String)
    (mconfig : CkptConfig) : Option String × Option LoadedVae :=
  match siblingVaePath fs weights with
  | some p => (some p, none)
  | none =>
    let vae_config := mconfig.vaeField
    match vae_config with
    | some (.str s) =>
      if s ≠ "" then (some s, none)
      else
        -- a falsy string is neither `vae_config and isinstance(..., str)`
        -- nor `vae_config and isinstance(..., DictConfig)`: fall to tier 4
        (none, some ⟨defaultVaeRepo⟩)
    | some (.fdict entries) =>
      if entries.isEmpty then
        -- an empty mapping is falsy: fall to tier 4
        (none, some ⟨defaultVaeRepo⟩)
      else
        -- `root_dir / vae_config.get('path') if vae_config.get('path')
        --  else vae_config.get('repo_id')`
        let loc : Option String :=
          match dictGet entries "path" with
          | some p => if p ≠ "" then some (osJoin g.rootDir p)
                      else dictGet entries "repo_id"
          | none => dictGet entries "repo_id"
        match loc with
        | some l => if l ≠ "" then (none, some ⟨l⟩) else (none, none)
        | none => (none, none)
    | _ =>
      -- `vae_config` absent or falsy and not a mapping: tier 4
      (none, some ⟨defaultVaeRepo⟩)

/-- The result of `convert_ckpt_and_cache`: the returned path, the file
system afterwards, and whether the underlying converter was invoked. -/
structure ConvResult where
  path : String
  fs : PathFS
  converted : Bool
  deriving DecidableEq, Repr

/-- `ModelManager.convert_ckpt_and_cache`: target is the converted-artifacts
root joined with the stem of the weights file; existence of that directory
is the only cache test; on a miss, resolve the VAE and run the converter
(which materialises the target directory). -/
def convert_ckpt_and_cache (g : Globals) (fs : PathFS) (mconfig : CkptConfig) :
    ConvResult :=
  let weights := osJoin g.rootDir mconfig.weights
  let diffusers_path := osJoin g.convertedCkptsDir (pathStem weights)
  if fs.existsPath diffusers_path then ⟨diffusers_path, fs, false⟩
  else
    let _vae := get_vae_for_conversion g fs weights mconfig
    ⟨diffusers_path, fs.addDir diffusers_path, true⟩

/-! ## Schema migrator (`_update_config_file_version`) -/

/-- The current schema version, `CONFIG_FILE_VERSION`. -/
def CONFIG_FILE_VERSION : String := "3.0.0"

/-- Decimal digit value of a character, `none` for a non-digit. -/
def charDigit (ch : Char) : Option Nat :=
  if '0' ≤ ch ∧ ch ≤ '9' then some (ch.toNat - '0'.toNat) else none

/-- Parse a nonempty all-digit string (Python `int(s)` on version parts). -/
def strToNat (s : String) : Option Nat :=
  if s.data.isEmpty then none
  else s.data.foldl
    (fun acc ch =>
      match acc, charDigit ch with
      | some n, some d => some (n * 10 + d)
      | _, _ => none)
    (some 0)

/-- Dotted numeric version parsing; `none` models a parse failure raised by
`packaging.version.parse`. -/
def parseVer (s : String) : Option (List Nat) :=
  (splitOnChar s '.').mapM strToNat

/-- Strict lexicographic order on parsed version component lists. -/
def verCompLt : List Nat → List Nat → Bool
  | [], [] => false
  | [], _ :: _ => true
  | _ :: _, [] => false
  | a :: as, b :: bs => if a < b then true else if b < a then false else verCompLt as bs

/-- `version.parse(a) < version.parse(b)`; `none` when either side fails to
parse. -/
def verLt (a b : String) : Option Bool := do
  let pa ← parseVer a
  let pb ← parseVer b
  pure (verCompLt pa pb)

/-- `self.config.get("_version", "1.0.0")`: absent tag defaults to "1.0.0";
a non-string tag is not version-parsable (`none` models the raise). -/
def versionOf (cfg : Config) : Option String :=
  match lookupVal cfg "_version" with
  | none => some "1.0.0"
  | some (.cstr v) => some v
  | some (.stanza _) => none

/-- The allow-list of fields copied forward by the migrator (besides the
always-written `description` and `format`). -/
def migrationAllowList : List String := ["repo_id", "path", "weights", "config", "vae"]

/-- The re-derived `format` of a migrated stanza: explicit `diffusers`
format becomes `folder`; else a truthy `weights` path ending `.ckpt` /
`.safetensors` decides; else the old format value is kept. -/
def migratedFormat (st : Stanza) : FieldVal :=
  if lookupField st "format" = some (.str "diffusers") then .str "folder"
  else
    match truthyField st "weights" with
    | some (.str w) =>
      if pathSuffix w = ".ckpt" then .str "ckpt"
      else if pathSuffix w = ".safetensors" then .str "safetensors"
      else (lookupField st "format").getD .fnone
    | _ => (lookupField st "format").getD .fnone

/-- One migrated stanza: `dict(description=..., format=...)` then `update`
with each truthy allow-listed field. -/
def migrateStanza (st : Stanza) : Stanza :=
  [("description", (lookupField st "description").getD .fnone),
   ("format", migratedFormat st)] ++
  migrationAllowList.filterMap (fun f => (truthyField st f).map (fun v => (f, v)))

/-- Whether an old stanza is skipped as a legacy VAE attachment:
`old_stanza.get("config") and '/VAE/' in old_stanza.get("config")`. -/
def isLegacyVaeStanza (st : Stanza) : Bool :=
  match truthyField st "config" with
  | some (.str c) => strContains c "/VAE/"
  | _ => false

/-- The migrated entry for one old config entry, `none` when the entry is
skipped (non-stanza values and legacy VAE attachments). -/
def migrateEntry (kv : String × ConfigVal) : Option (String × ConfigVal) :=
  match kv.2 with
  | .stanza st =>
    if isLegacyVaeStanza st then none
    else
      let new_key := if strContains kv.1 "/" then kv.1 else "diffusers/" ++ kv.1
      some (new_key, .stanza (migrateStanza st))
  | .cstr _ => none

/-- The outcome of `_update_config_file_version`: the (possibly rewritten)
config, whether the persisted document was renamed to `models.yaml.orig`,
whether `commit()` ran, and whether the migration branch was taken. -/
structure MigResult where
  config : Config
  backedUp : Bool
  committed : Bool
  migrated : Bool
  deriving DecidableEq, Repr

/-- `ModelManager._update_config_file_version`: compare the stored `_version`
tag with `CONFIG_FILE_VERSION`; when older, back the file up (if a path is
known), rebuild the store stanza by stanza and persist; otherwise do
nothing. -/
def update_config_file_version (cfg : Config) (configPath : Option String) :
    Except String MigResult :=
  match versionOf cfg with
  | none => .error "TypeError: expected string or bytes-like object"
  | some current_version =>
    match verLt current_version CONFIG_FILE_VERSION with
    | none => .error "InvalidVersion"
    | some false => .ok ⟨cfg, false, false, false⟩
    | some true =>
      let base : Config := [("_version", .cstr CONFIG_FILE_VERSION)]
      let new_config := cfg.foldl
        (fun acc kv =>
          match migrateEntry kv with
          | some (k, v) => dictSet acc k v
          | none => acc)
        base
      .ok ⟨new_config, configPath.isSome, configPath.isSome, true⟩

/-! ## `set_default_model` and `del_model` -/

/-- `ModelManager.model_exists`. -/
def model_exists (cfg : Config) (model_name : String) (model_type : SDModelType) :
    Bool :=
  (lookupVal cfg (create_key model_name model_type)).isSome

/-- `ModelManager.model_names`: parse every key whose value is a stanza;
any unparsable key raises. -/
def model_names (cfg : Config) : Except String (List (String × SDModelType)) :=
  mapExcept (fun kv => parse_key kv.1)
    (cfg.filter (fun kv => match kv.2 with | .stanza _ => true | _ => false))

/-- `ModelManager.set_default_model`: assert the model exists, pop `default`
from every stanza, then set `default=True`.  Note the Python loop variables
shadow the arguments: after the loop they hold the *last* iterated pair (or
the original arguments when the loop body never ran), and that pair is the
one that receives `default=True`. -/
def set_default_model (cfg : Config) (model_name : String)
    (model_type : SDModelType) : Except String Config :=
  if !model_exists cfg model_name model_type then
    .error "AssertionError: unknown model"
  else do
    let names ← model_names cfg
    let cfg1 := names.foldl
      (fun c nt => popStanzaField c (create_key nt.1 nt.2) "default") cfg
    let last := names.getLast?.getD (model_name, model_type)
    setStanzaField cfg1 (create_key last.1 last.2) "default" (.fbool true)

/-- Whether a store key belongs to the given type family (its encoded
prefix parses to that type). -/
def keyHasType (k : String) (t : SDModelType) : Bool :=
  match parse_key k with
  | .ok (_, t') => t' == t
  | .error _ => false

/-- Whether a store value is a descriptor carrying a truthy `default` flag. -/
def hasTrueDefault : ConfigVal → Bool
  | .stanza st =>
    match lookupField st "default" with
    | some v => v.truthy
    | none => false
  | .cstr _ => false

/-- `ModelManager.del_model`.  The source's first store access is
`self.pop(model_key, None)` — but `ModelManager` (a plain subclass of
`object`) defines no `pop` attribute, so every call raises
`AttributeError` before the unknown-key logging branch or any store or file
mutation can run. -/
def del_model (cfg : Config) (model_name : String) (model_type : SDModelType)
    (delete_files : Bool := false) : Except String Config :=
  let _model_key := create_key model_name model_type
  .error "AttributeError: ModelManager object has no attribute pop"

/-! ## Directory reconciler (`scan_models_directory`) -/

/-- A directory tree as walked by `os.walk`: a directory name, its
subdirectories and its plain files. -/
inductive FSNode where
  | mk (name : String) (subdirs : List FSNode) (files : List String)

/-- The name of a tree node. -/
def FSNode.name : FSNode → String
  | .mk n _ _ => n

/- `os.walk(p)` (top-down): the triple for the directory itself, then the
triples of its subdirectories in order. -/
mutual
def walkFrom (p : String) : FSNode → List (String × List String × List String)
  | .mk _ ds fs => (p, ds.map FSNode.name, fs) :: walkList p ds
def walkList (p : String) : List FSNode → List (String × List String × List String)
  | [] => []
  | d :: rest => walkFrom (osJoin p d.name) d ++ walkList p rest
end

/- Existence of a path (given by its components) inside a directory. -/
mutual
def existsUnder : FSNode → List String → Bool
  | _, [] => false
  | .mk _ ds fs, [c] => fs.contains c || ds.any (fun d => FSNode.name d == c)
  | .mk _ ds _, c :: rest => existsInDirs ds c rest
def existsInDirs : List FSNode → String → List String → Bool
  | [], _, _ => false
  | d :: ds, c, rest =>
    (if FSNode.name d == c then existsUnder d rest else false) ||
      existsInDirs ds c rest
end

/-- `Path(p).exists()` against the walked tree (the tree's root directory
included). -/
def existsInTree (root : FSNode) (p : String) : Bool :=
  match splitOnChar p '/' with
  | [] => false
  | c :: rest =>
    c == root.name && (if rest.isEmpty then true else existsUnder root rest)

/-- The stale-entry test of `_delete_defunct_models` for one entry: `some
true` marks the key for deletion; `.error` models the raises on a `None` /
mapping `path` value (`Path / None`) and on a top-level string value that
contains the substring `"path"` (attribute access on `str`). -/
def defunctCheck (g : Globals) (tree : FSNode) (kv : String × ConfigVal) :
    Except String Bool :=
  match kv.2 with
  | .cstr s =>
    if strContains s "path" then .error "AttributeError: str has no attribute path"
    else .ok false
  | .stanza st =>
    match lookupField st "path" with
    | none => .ok false
    | some (.str p) => .ok (!existsInTree tree (osJoin g.rootDir p))
    | some _ => .error "TypeError: unsupported operand for /"

/-- Collect the keys to delete. -/
def defunctKeys (g : Globals) (tree : FSNode) : Config → Except String (List String)
  | [] => .ok []
  | kv :: rest => do
    let b ← defunctCheck g tree kv
    let ks ← defunctKeys g tree rest
    .ok (if b then kv.1 :: ks else ks)

/-- `config.pop(key)`: with unique keys, dropping every entry named `key`. -/
def popKey (cfg : Config) (key : String) : Config :=
  cfg.filter (fun kv => kv.1 ≠ key)

/-- `ModelManager._delete_defunct_models`: remove every descriptor whose
declared local `path` no longer exists on disk. -/
def delete_defunct_models (g : Globals) (tree : FSNode) (cfg : Config) :
    Except String Config := do
  let to_delete ← defunctKeys g tree cfg
  .ok (to_delete.foldl popKey cfg)

/-- Process one `os.walk` triple of `scan_models_directory`: locate the
`models` component of the root, require at least `<base>/<type>` below it,
skip composite `diffusers` entries unless opted in, then register every
subdirectory and file at this level. -/
def processWalkEntry (includeDiffusers : Bool) (cfg : Config)
    (t : String × List String × List String) : Except String Config :=
  let root := t.1
  let dirs := t.2.1
  let files := t.2.2
  let parents := splitOnChar root '/'
  match parents.findIdx? (fun c => c == "models") with
  | none => .error "ValueError: models is not in list"
  | some i =>
    match parents.drop (i + 1) with
    | base :: model_type :: _ =>
      if model_type == "diffusers" && !includeDiffusers then .ok cfg
      else
        let cfg1 := dirs.foldl
          (fun c d => dictSet c (model_type ++ "/" ++ d)
            (.stanza [("path", .str (osJoin root d)),
                      ("description", .str (model_type ++ " model " ++ d)),
                      ("format", .str "folder"),
                      ("base", .str base)]))
          cfg
        let cfg2 := files.foldl
          (fun c f => dictSet c (model_type ++ "/" ++ pathStem f)
            (.stanza [("path", .str (osJoin root f)),
                      ("description", .str (model_type ++ " model " ++ pathStem f)),
                      ("format", .str ((pathSuffix f).drop 1)),
                      ("base", .str base)]))
          cfg1
        .ok cfg2
    | _ => .ok cfg

/-- Fold the walk triples through the store. -/
def processWalk (includeDiffusers : Bool) :
    List (String × List String × List String) → Config → Except String Config
  | [], cfg => .ok cfg
  | t :: rest, cfg => do
    let cfg' ← processWalkEntry includeDiffusers cfg t
    processWalk includeDiffusers rest cfg'

/-- `ModelManager.scan_models_directory`: prune stale entries, then walk the
models tree and (re)create an entry for everything found at least two levels
below the root. -/
def scan_models_directory (g : Globals) (tree : FSNode) (cfg : Config)
    (includeDiffusers : Bool := false) : Except String Config := do
  let cfg ← delete_defunct_models g tree cfg
  processWalk includeDiffusers (walkFrom g.modelsPath tree) cfg

/-! ## `heuristic_import` dispatch

The branches that hand off to external collaborators (network download,
checkpoint probing and conversion, recursive directory import, repo-id
import) are abstracted as explicit continuations; the dispatch itself — and
in particular the early skip of already-unpacked diffusers components — is
embedded from the source. -/

/-- The external continuations of `heuristic_import`; each maps the store
and the reference to the returned model name and the updated store. -/
structure ImportOps where
  urlImport : Config → String → Option String × Config
  checkpointImport : Config → String → Option String × Config
  diffusersDirImport : Config → String → Option String × Config
  dirScanImport : Config → String → Option String × Config
  repoIdImport : Config → String → Option String × Config

/-- The character class `[\w.+-]` of the repo-id pattern. -/
def repoIdChar (c : Char) : Bool :=
  c.isAlphanum || c = '_' || c = '.' || c = '+' || c = '-'

/-- `re.match(r"^[\w.+-]+/[\w.+-]+$", thing)`. -/
def isRepoIdShaped (s : String) : Bool :=
  match splitFirstSlash s.data with
  | some (pre, suf) =>
    !pre.isEmpty && !suf.isEmpty && pre.all repoIdChar && suf.all repoIdChar
  | none => false

/-- The stems recognised as components of an already-unpacked diffusers
pipeline. -/
def pipelineComponentStems : List String := ["model", "diffusion_pytorch_model"]

/-- `ModelManager.heuristic_import`, dispatch part: classify the reference by
shape and hand off; a `.ckpt`/`.safetensors` file whose stem names a
diffusers pipeline component is skipped outright (no name, no store
change). -/
def heuristic_import (ops : ImportOps) (fs : PathFS) (cfg : Config)
    (thing : String) : Option String × Config :=
  if strStartsWith thing "http:" || strStartsWith thing "https:" ||
      strStartsWith thing "ftp:" then
    ops.urlImport cfg thing
  else if fs.isFile thing &&
      (strEndsWith thing ".ckpt" || strEndsWith thing ".safetensors") then
    if pipelineComponentStems.contains (pathStem thing) then (none, cfg)
    else ops.checkpointImport cfg thing
  else if fs.isDir thing && fs.existsPath (osJoin thing "model_index.json") then
    ops.diffusersDirImport cfg thing
  else if fs.isDir thing then
    ops.dirScanImport cfg thing
  else if isRepoIdShaped thing then
    ops.repoIdImport cfg thing
  else
    (none, cfg)

/-! ## Helper lemmas -/

theorem splitFirstSlash_append (pre suf : List Char) (h : '/' ∉ pre) :
    splitFirstSlash (pre ++ '/' :: suf) = some (pre, suf) := by
  induction pre with
  | nil => simp [splitFirstSlash]
  | cons c cs ih =>
    have hc : ¬(c = '/') := fun hc => h (hc ▸ List.mem_cons_self c cs)
    have hcs : '/' ∉ cs := fun hm => h (List.mem_cons_of_mem c hm)
    simp [splitFirstSlash, hc, ih hcs]

theorem splitFirstSlash_eq_some {l a b : List Char}
    (h : splitFirstSlash l = some (a, b)) : l = a ++ '/' :: b := by
  induction l generalizing a b with
  | nil => simp [splitFirstSlash] at h
  | cons c cs ih =>
    by_cases hc : c = '/'
    · subst hc
      simp [splitFirstSlash] at h
      obtain ⟨rfl, rfl⟩ := h
      rfl
    · simp only [splitFirstSlash, if_neg hc] at h
      rcases hsp : splitFirstSlash cs with _ | ⟨a', b'⟩
      · rw [hsp] at h; simp at h
      · rw [hsp] at h
        simp only [Option.map_some', Option.some.injEq, Prod.mk.injEq] at h
        obtain ⟨ha, hb⟩ := h
        subst ha
        subst hb
        simp [ih hsp]

theorem sdModelTypeStr_no_slash (t : SDModelType) : '/' ∉ (sdModelTypeStr t).data := by
  cases t <;> decide

theorem sdModelTypeOfString_str (t : SDModelType) :
    sdModelTypeOfString (sdModelTypeStr t) = some t := by
  cases t <;> rfl

set_option maxHeartbeats 1000000 in
theorem sdModelTypeOfString_sound {s : String} {t : SDModelType}
    (h : sdModelTypeOfString s = some t) : sdModelTypeStr t = s := by
  unfold sdModelTypeOfString at h
  split_ifs at h
  all_goals first
    | (injection h with h'
       subst h'
       subst_vars
       rfl)
    | exact Option.noConfusion h

theorem create_key_data (name : String) (t : SDModelType) :
    (create_key name t).data = (sdModelTypeStr t).data ++ '/' :: name.data := by
  simp [create_key, String.data_append]

/-! ## C7: the key codec round-trips -/

/-- C7: for every model name and model type, decoding the encoded key returns
the original pair — `parse_key (create_key name type) = (name, type)` — for
all names, including names containing `'/'`, since encoding prepends
`type ++ "/"` and decoding splits on the first `'/'` only. -/
theorem c7_parse_key_create_key_roundtrip (name : String) (t : SDModelType) :
    parse_key (create_key name t) = .ok (name, t) := by
  unfold parse_key
  rw [create_key_data,
    splitFirstSlash_append _ _ (sdModelTypeStr_no_slash t)]
  cases t <;> rfl

/-! ## C3: the legacy probe classification -/

/-- C3: for every checkpoint: when the well-known cross-attention tensor is
present with last dimension 1024, the probe returns `V2_e` at
`global_step == 220000`, `V2_v` at `110000`, plain `V2` otherwise; when
that test fails, the first convolution's input-channel count decides —
9 ⇒ `V1_INPAINT`, 4 ⇒ `V1`, anything else ⇒ `UNKNOWN` — and a missing
tensor gives `UNKNOWN`. -/
theorem c3_probe_model_type_classification (cp : Checkpoint) :
    (∀ shape, lookupShape (effectiveStateDict cp) attnKeyName = some shape →
      shape.getLast? = some 1024 →
      probe_model_type cp = .ok (if cp.global_step = some 220000 then .V2_e
        else if cp.global_step = some 110000 then .V2_v else .V2)) ∧
    ((lookupShape (effectiveStateDict cp) attnKeyName = none ∨
      ∃ shape d, lookupShape (effectiveStateDict cp) attnKeyName = some shape ∧
        shape.getLast? = some d ∧ d ≠ 1024) →
      (∀ cshape c,
        lookupShape (effectiveStateDict cp) firstConvKeyName = some cshape →
        cshape.get? 1 = some c →
        probe_model_type cp = .ok (if c = 9 then .V1_INPAINT
          else if c = 4 then .V1 else .UNKNOWN)) ∧
      (lookupShape (effectiveStateDict cp) firstConvKeyName = none →
        probe_model_type cp = .ok .UNKNOWN)) := by
  constructor
  · intro shape hs h1024
    simp only [probe_model_type, hs, h1024]
    rfl
  · intro hnotv2
    have hbranch : ∀ r, probeV1Branch (effectiveStateDict cp) = r →
        probe_model_type cp = (match r with
          | .error .keyError => .ok .UNKNOWN
          | r => r) := by
      intro r hr
      rcases hnotv2 with hnone | ⟨shape, d, hs, hd, hne⟩
      · simp only [probe_model_type, hnone, hr]
      · simp only [probe_model_type, hs, hd, if_neg hne, hr]
    constructor
    · intro cshape c hc hget
      have := hbranch (.ok (if c = 9 then .V1_INPAINT
        else if c = 4 then .V1 else .UNKNOWN))
        (by simp only [probeV1Branch, hc, hget]; split_ifs <;> rfl)
      simpa using this
    · intro hc
      have := hbranch (.error .keyError) (by simp only [probeV1Branch, hc])
      simpa using this

/-- Witness for C3 at a concrete V2-e checkpoint. -/
theorem c3_witness :
    probe_model_type ⟨some 220000, none, [(attnKeyName, [77, 1024])]⟩ =
      .ok .V2_e := by
  have h := (c3_probe_model_type_classification
      ⟨some 220000, none, [(attnKeyName, [77, 1024])]⟩).1 [77, 1024] rfl rfl
  simpa using h

/-! ## C2: the conversion cache is idempotent and keyed by existence only -/

/-- C2: `convert_ckpt_and_cache` returns the fixed converted-artifacts root
joined with the stem of the weights file; a second call on the resulting
file system returns the same path without invoking the converter again (so
two calls convert at most once); and directory existence is the sole
cache-hit test — when the target exists the call returns it immediately,
unchanged file system, no conversion, regardless of the descriptor's other
content. -/
theorem c2_convert_ckpt_and_cache_idempotent (g : Globals) (fs : PathFS)
    (mconfig : CkptConfig) :
    (convert_ckpt_and_cache g fs mconfig).path =
      osJoin g.convertedCkptsDir (pathStem (osJoin g.rootDir mconfig.weights)) ∧
    (convert_ckpt_and_cache g (convert_ckpt_and_cache g fs mconfig).fs mconfig).path =
      (convert_ckpt_and_cache g fs mconfig).path ∧
    (convert_ckpt_and_cache g (convert_ckpt_and_cache g fs mconfig).fs mconfig).converted =
      false ∧
    (fs.existsPath
        (osJoin g.convertedCkptsDir (pathStem (osJoin g.rootDir mconfig.weights))) =
        true →
      convert_ckpt_and_cache g fs mconfig =
        ⟨osJoin g.convertedCkptsDir (pathStem (osJoin g.rootDir mconfig.weights)),
          fs, false⟩) := by
  by_cases h : fs.existsPath
      (osJoin g.convertedCkptsDir (pathStem (osJoin g.rootDir mconfig.weights))) = true
  · refine ⟨?_, ?_, ?_, ?_⟩ <;>
      simp [convert_ckpt_and_cache, h]
  · rw [Bool.not_eq_true] at h
    have h2 : (fs.addDir
        (osJoin g.convertedCkptsDir (pathStem (osJoin g.rootDir mconfig.weights)))).existsPath
        (osJoin g.convertedCkptsDir (pathStem (osJoin g.rootDir mconfig.weights))) = true := by
      simp [PathFS.addDir, PathFS.existsPath]
    refine ⟨?_, ?_, ?_, ?_⟩ <;>
      simp [convert_ckpt_and_cache, h, h2]

/-- Witness for C2's cache-hit conjunct at a concrete store and file
system. -/
theorem c2_witness :
    convert_ckpt_and_cache ⟨"/root", "/root/converted", "models"⟩
        ⟨[], ["/root/converted/v1-5"]⟩ ⟨"v1-5.ckpt", "v1.yaml", none⟩ =
      ⟨"/root/converted/v1-5", ⟨[], ["/root/converted/v1-5"]⟩, false⟩ := by
  have h := (c2_convert_ckpt_and_cache_idempotent
      ⟨"/root", "/root/converted", "models"⟩
      ⟨[], ["/root/converted/v1-5"]⟩ ⟨"v1-5.ckpt", "v1.yaml", none⟩).2.2.2 (by rfl)
  simpa using h

theorem osJoin_ne_empty {a b : String} (h : b ≠ "") : osJoin a b ≠ "" := by
  unfold osJoin
  split_ifs with h1 h2
  · exact h
  · exact h
  · intro hc
    have := congrArg String.data hc
    simp [String.data_append] at this

/-! ## C4: the VAE tier resolution -/

/-- C4: on a conversion-cache miss the auxiliary VAE resolves in strict
first-match-wins tier order — (a) a sibling `<stem>.vae.{pt,ckpt,safetensors}`
file used as a path, (b) a string-valued `vae` field used as a path, (c) a
structured `vae` field naming a `path` or `repo_id`, loaded as a VAE object,
(d) the fixed public `stabilityai/sd-vae-ft-mse` as a loaded object — and
the result is a path or an object, never both at once. -/
theorem c4_get_vae_for_conversion_tiers (g : Globals) (fs : PathFS)
    (weights : String) (mconfig : CkptConfig) :
    (∀ p, siblingVaePath fs weights = some p →
      get_vae_for_conversion g fs weights mconfig = (some p, none)) ∧
    (∀ s, siblingVaePath fs weights = none →
      mconfig.vaeField = some (.str s) → s ≠ "" →
      get_vae_for_conversion g fs weights mconfig = (some s, none)) ∧
    (∀ entries p, siblingVaePath fs weights = none →
      mconfig.vaeField = some (.fdict entries) →
      dictGet entries "path" = some p → p ≠ "" →
      get_vae_for_conversion g fs weights mconfig =
        (none, some ⟨osJoin g.rootDir p⟩)) ∧
    (∀ entries r, siblingVaePath fs weights = none →
      mconfig.vaeField = some (.fdict entries) →
      (dictGet entries "path" = none ∨ dictGet entries "path" = some "") →
      dictGet entries "repo_id" = some r → r ≠ "" →
      get_vae_for_conversion g fs weights mconfig = (none, some ⟨r⟩)) ∧
    (siblingVaePath fs weights = none → mconfig.vaeField = none →
      get_vae_for_conversion g fs weights mconfig =
        (none, some ⟨defaultVaeRepo⟩)) ∧
    ¬((get_vae_for_conversion g fs weights mconfig).1.isSome = true ∧
      (get_vae_for_conversion g fs weights mconfig).2.isSome = true) := by
  refine ⟨?_, ?_, ?_, ?_, ?_, ?_⟩
  · intro p hp
    simp [get_vae_for_conversion, hp]
  · intro s hp hv hs
    simp [get_vae_for_conversion, hp, hv, hs]
  · intro entries p hp hv hpath hpne
    have hne : ¬entries.isEmpty := by
      rcases entries with _ | e
      · simp [dictGet] at hpath
      · simp
    simp [get_vae_for_conversion, hp, hv, hne, hpath, hpne,
      osJoin_ne_empty hpne]
  · intro entries r hp hv hpath hrepo hrne
    have hne : ¬entries.isEmpty := by
      rcases entries with _ | e
      · simp [dictGet] at hrepo
      · simp
    rcases hpath with hpath | hpath <;>
      simp [get_vae_for_conversion, hp, hv, hne, hpath, hrepo, hrne]
  · intro hp hv
    simp [get_vae_for_conversion, hp, hv]
  · rintro ⟨h1, h2⟩
    unfold get_vae_for_conversion at h1 h2
    rcases hp : siblingVaePath fs weights with _ | p <;> rw [hp] at h1 h2
    · rcases hv : mconfig.vaeField with _ | fv <;> rw [hv] at h1 h2
      · simp at h1
      · rcases fv with s | b | _ | entries
        · by_cases hs : s = "" <;> simp [hs] at h1 h2
        · simp at h1
        · simp at h1
        · by_cases hne : entries.isEmpty
          · simp [hne] at h1
          · simp only [hne, Bool.false_eq_true, if_false] at h1 h2
            rcases hloc : (match dictGet entries "path" with
              | some p => if p ≠ "" then some (osJoin g.rootDir p)
                          else dictGet entries "repo_id"
              | none => dictGet entries "repo_id") with _ | l <;>
              rw [hloc] at h1 h2
            · simp at h1
            · by_cases hl : l = "" <;> simp [hl] at h1 h2
    · simp at h2

/-- Witness for C4 at concrete inputs exercising the fallback tier. -/
theorem c4_witness :
    get_vae_for_conversion ⟨"", "", ""⟩ ⟨[], []⟩ "v1-5.ckpt"
        ⟨"v1-5.ckpt", "v1.yaml", none⟩ = (none, some ⟨defaultVaeRepo⟩) :=
  (c4_get_vae_for_conversion_tiers ⟨"", "", ""⟩ ⟨[], []⟩ "v1-5.ckpt"
    ⟨"v1-5.ckpt", "v1.yaml", none⟩).2.2.2.2.1 rfl rfl

/-! ## C5: the migrator is a no-op on an already-current store -/

/-- C5: running the schema migrator on a store whose `_version` tag already
equals the current schema version leaves the store and tag unchanged,
creates no backup and persists nothing (the version comparison
short-circuits), and running it twice gives the same result as once. -/
theorem c5_update_config_file_version_noop (cfg : Config)
    (configPath : Option String)
    (h : versionOf cfg = some CONFIG_FILE_VERSION) :
    update_config_file_version cfg configPath = .ok ⟨cfg, false, false, false⟩ ∧
    (∀ res, update_config_file_version cfg configPath = .ok res →
      update_config_file_version res.config configPath =
        update_config_file_version cfg configPath) := by
  have h1 : update_config_file_version cfg configPath =
      .ok ⟨cfg, false, false, false⟩ := by
    unfold update_config_file_version
    rw [h]
    rfl
  refine ⟨h1, ?_⟩
  intro res hres
  rw [h1] at hres
  injection hres with h2
  rw [← h2]

/-- Witness for C5 at a concrete already-current store. -/
theorem c5_witness :
    update_config_file_version
        [("_version", .cstr "3.0.0"),
         ("diffusers/stable-diffusion-1.5", .stanza [("path", .str "sd-1.5")])]
        (some "models.yaml") =
      .ok ⟨[("_version", .cstr "3.0.0"),
            ("diffusers/stable-diffusion-1.5", .stanza [("path", .str "sd-1.5")])],
           false, false, false⟩ :=
  (c5_update_config_file_version_noop
    [("_version", .cstr "3.0.0"),
     ("diffusers/stable-diffusion-1.5", .stanza [("path", .str "sd-1.5")])]
    (some "models.yaml") (by rfl)).1

/-! ## C1: `del_model` cannot run at all (`self.pop` does not exist) -/

/-- C1 (code bug): the claim says `del_model` on an unknown key logs an error
and raises nothing, but the very first store access of the source is
`self.pop(model_key, None)` on a class that defines no `pop` attribute, so
every call — unknown key or not — raises `AttributeError` before the
logging branch, and the unknown-key handler below it is unreachable. -/
theorem c1_del_model_always_raises (cfg : Config) (name : String)
    (t : SDModelType) :
    del_model cfg name t =
      .error "AttributeError: ModelManager object has no attribute pop" := rfl

/-! ## C10: pipeline components are skipped by `heuristic_import` -/

/-- C10: an existing `.ckpt`/`.safetensors` file whose stem is `model` or
`diffusion_pytorch_model` (a component of an already-unpacked diffusers
pipeline) is skipped by `heuristic_import`: no model name is returned and
the store is untouched, whatever the external collaborators would do.  (A
name with a `http:`/`https:`/`ftp:` scheme prefix would be dispatched as a
URL before the file test; such names are not file paths of pipeline
components.) -/
theorem c10_heuristic_import_skips_pipeline_components (ops : ImportOps)
    (fs : PathFS) (cfg : Config) (thing : String)
    (hurl : strStartsWith thing "http:" = false ∧
      strStartsWith thing "https:" = false ∧ strStartsWith thing "ftp:" = false)
    (hfile : fs.isFile thing = true)
    (hext : strEndsWith thing ".ckpt" = true ∨
      strEndsWith thing ".safetensors" = true)
    (hstem : pathStem thing = "model" ∨
      pathStem thing = "diffusion_pytorch_model") :
    heuristic_import ops fs cfg thing = (none, cfg) := by
  obtain ⟨h1, h2, h3⟩ := hurl
  unfold heuristic_import
  rw [h1, h2, h3]
  rcases hext with h | h <;> rcases hstem with hs | hs <;>
    simp [hfile, h, hs, pipelineComponentStems]

/-- Witness for C10 at a concrete pipeline-component file. -/
theorem c10_witness :
    heuristic_import
        ⟨fun c _ => (some "u", c), fun c _ => (some "c", c),
         fun c _ => (some "d", c), fun c _ => (some "s", c),
         fun c _ => (some "r", c)⟩
        ⟨["/sd/unet/model.safetensors"], []⟩ []
        "/sd/unet/model.safetensors" = (none, []) :=
  c10_heuristic_import_skips_pipeline_components _ _ _ _
    ⟨by decide, by decide, by decide⟩ (by decide) (.inr (by decide))
    (.inl (by decide))

/-! ## C6: the migrated-stanza field set -/

/-- C6 (counterexample): the claim's allow-list is incomplete — the migrator
also copies the old stanza's `description` field into the migrated stanza,
although `description` is neither one of `repo_id`/`path`/`weights`/
`config`/`vae` nor the re-derived `format`. -/
theorem c6_counterexample :
    update_config_file_version
        [("diffusers/test", .stanza
          [("description", .str "hello"), ("format", .str "diffusers"),
           ("extra", .str "junk")])] none =
      .ok ⟨[("_version", .cstr "3.0.0"),
            ("diffusers/test", .stanza
              [("description", .str "hello"), ("format", .str "folder")])],
           false, false, true⟩ ∧
    lookupField [("description", FieldVal.str "hello"),
        ("format", FieldVal.str "folder")] "description" =
      some (.str "hello") ∧
    "description" ∉ ["repo_id", "path", "weights", "config", "vae", "format"] := by
  refine ⟨by rfl, by decide, by decide⟩

theorem mem_migrateStanza_fields {st : Stanza} {f : String} {v : FieldVal}
    (h : (f, v) ∈ migrateStanza st) :
    f ∈ ["description", "format", "repo_id", "path", "weights", "config", "vae"] := by
  unfold migrateStanza at h
  rcases List.mem_append.mp h with h | h
  · rcases List.mem_cons.mp h with h | h
    · simp [Prod.ext_iff] at h
      simp [h.1]
    · rcases List.mem_cons.mp h with h | h
      · simp [Prod.ext_iff] at h
        simp [h.1]
      · cases h
  · obtain ⟨a, ha, hfa⟩ := List.mem_filterMap.mp h
    rcases hta : truthyField st a with _ | w <;> rw [hta] at hfa
    · cases hfa
    · simp at hfa
      obtain ⟨rfl, -⟩ := hfa
      have : ∀ x ∈ migrationAllowList,
          x ∈ ["description", "format", "repo_id", "path", "weights",
               "config", "vae"] := by decide
      exact this _ ha

theorem dictSet_mem {cfg : Config} {key : String} {v : ConfigVal}
    {kv : String × ConfigVal} (h : kv ∈ dictSet cfg key v) :
    kv = (key, v) ∨ kv ∈ cfg := by
  unfold dictSet at h
  split at h
  · obtain ⟨kv', hkv', heq⟩ := List.mem_map.mp h
    by_cases hk : kv'.1 == key
    · rw [if_pos hk] at heq
      exact Or.inl heq.symm
    · rw [if_neg hk] at heq
      exact Or.inr (heq ▸ hkv')
  · rcases List.mem_append.mp h with h | h
    · exact Or.inr h
    · rcases List.mem_cons.mp h with h | h
      · exact Or.inl h
      · cases h

theorem migrate_fold_fields {l : List (String × ConfigVal)} {acc : Config}
    (hacc : ∀ k ns, (k, ConfigVal.stanza ns) ∈ acc → ∀ f v, (f, v) ∈ ns →
      f ∈ ["description", "format", "repo_id", "path", "weights", "config", "vae"]) :
    ∀ k ns, (k, ConfigVal.stanza ns) ∈ l.foldl
        (fun acc kv =>
          match migrateEntry kv with
          | some (k, v) => dictSet acc k v
          | none => acc) acc →
      ∀ f v, (f, v) ∈ ns →
        f ∈ ["description", "format", "repo_id", "path", "weights", "config", "vae"] := by
  induction l generalizing acc with
  | nil => exact hacc
  | cons kv0 rest ih =>
    simp only [List.foldl_cons]
    apply ih
    intro k ns hmem f v hfv
    rcases hme : migrateEntry kv0 with _ | ⟨k', v'⟩
    · rw [hme] at hmem
      exact hacc k ns hmem f v hfv
    · rw [hme] at hmem
      rcases dictSet_mem hmem with heq | hmem'
      · -- the inserted entry is a migrated stanza
        rcases kv0 with ⟨k0, cv0⟩
        rcases cv0 with s | st
        · simp [migrateEntry] at hme
        · rcases hskip : isLegacyVaeStanza st with _ | _
          case true => simp [migrateEntry, hskip] at hme
          case false =>
            simp [migrateEntry, hskip] at hme
            obtain ⟨-, hv'⟩ := hme
            have hv2 : ConfigVal.stanza ns = v' := by
              have := congrArg Prod.snd heq
              simpa using this
            rw [← hv'] at hv2
            injection hv2 with hns
            exact mem_migrateStanza_fields (hns ▸ hfv)
      · exact hacc k ns hmem' f v hfv

theorem lookupField_cons_ne {g : String} {w : FieldVal} {l : Stanza}
    {f : String} (h : ¬(g == f)) :
    lookupField ((g, w) :: l) f = lookupField l f := by
  simp [lookupField, List.find?, h]

theorem lookupField_filterMap_allow (st : Stanza) (fields : List String)
    (f : String) (v : FieldVal) (hf : f ∈ fields)
    (ht : truthyField st f = some v) :
    lookupField (fields.filterMap
        (fun g => (truthyField st g).map (fun w => (g, w)))) f = some v := by
  induction fields with
  | nil => cases hf
  | cons g gs ih =>
    by_cases hg : g = f
    · subst hg
      simp only [List.filterMap_cons, ht, Option.map_some']
      simp [lookupField, List.find?]
    · have hf' : f ∈ gs := by
        rcases List.mem_cons.mp hf with h | h
        · exact absurd h.symm hg
        · exact h
      rcases htg : truthyField st g with _ | w
      · simp only [List.filterMap_cons, htg, Option.map_none']
        exact ih hf'
      · simp only [List.filterMap_cons, htg, Option.map_some']
        rw [lookupField_cons_ne (by simpa using hg)]
        exact ih hf'

/-- C6 (amended): each migrated stanza consists of the copied `description`,
the re-derived `format`, and exactly those of `repo_id`/`path`/`weights`/
`config`/`vae` that are present with a truthy value in the old stanza
(copied verbatim); every field outside that set is dropped. -/
theorem c6_migration_allow_list (cfg : Config) (configPath : Option String)
    (res : MigResult)
    (hok : update_config_file_version cfg configPath = .ok res)
    (hmig : res.migrated = true) :
    (∀ k ns, (k, ConfigVal.stanza ns) ∈ res.config → ∀ f v, (f, v) ∈ ns →
      f ∈ ["description", "format", "repo_id", "path", "weights", "config", "vae"]) ∧
    (∀ st f v, f ∈ migrationAllowList → lookupField st f = some v →
      v.truthy = true → lookupField (migrateStanza st) f = some v) := by
  constructor
  · intro k ns hmem f v hfv
    unfold update_config_file_version at hok
    split at hok
    · cases hok
    · split at hok
      · cases hok
      · injection hok with hok'
        rw [← hok'] at hmig
        cases hmig
      · injection hok with hok'
        rw [← hok'] at hmem
        dsimp at hmem
        refine migrate_fold_fields ?_ k ns hmem f v hfv
        intro k' ns' hmem'
        rcases List.mem_cons.mp hmem' with h | h
        · cases h
        · cases h
  · intro st f v hf hlook htruthy
    have hne : ∀ x ∈ migrationAllowList,
        ¬(("description" == x) = true) ∧ ¬(("format" == x) = true) := by
      decide
    have ht : truthyField st f = some v := by
      simp [truthyField, hlook, htruthy]
    unfold migrateStanza
    rw [List.cons_append, List.cons_append, List.nil_append,
      lookupField_cons_ne (hne f hf).1, lookupField_cons_ne (hne f hf).2]
    exact lookupField_filterMap_allow st migrationAllowList f v hf ht

/-- Witness for C6's amended claim: the truthy `weights` field of a concrete
old stanza is copied verbatim. -/
theorem c6_witness :
    lookupField (migrateStanza
        [("description", .str "d"), ("weights", .str "w.ckpt"),
         ("extra", .str "junk")]) "weights" = some (.str "w.ckpt") := by
  have h := (c6_migration_allow_list
      [("diffusers/x", .stanza [("description", .str "d"),
        ("weights", .str "w.ckpt"), ("extra", .str "junk")])] none
      ⟨[("_version", .cstr "3.0.0"),
        ("diffusers/x", .stanza (migrateStanza
          [("description", .str "d"), ("weights", .str "w.ckpt"),
           ("extra", .str "junk")]))], false, false, true⟩
      (by rfl) rfl).2
  exact h [("description", .str "d"), ("weights", .str "w.ckpt"),
    ("extra", .str "junk")] "weights" (.str "w.ckpt") (by decide) (by decide)
    (by decide)

/-! ## C9: directory reconciliation -/

theorem except_bind_ok {ε α β : Type} (a : α) (f : α → Except ε β) :
    (Except.ok a >>= f) = f a := rfl

theorem except_bind_error {ε α β : Type} (e : ε) (f : α → Except ε β) :
    ((Except.error e : Except ε α) >>= f) = Except.error e := rfl

theorem defunctKeys_mem {g : Globals} {tree : FSNode} {cfg : Config}
    {kv : String × ConfigVal} {ks : List String} (hkv : kv ∈ cfg)
    (hchk : defunctCheck g tree kv = .ok true)
    (hks : defunctKeys g tree cfg = .ok ks) : kv.1 ∈ ks := by
  induction cfg generalizing ks with
  | nil => cases hkv
  | cons x xs ih =>
    rcases hcx : defunctCheck g tree x with e | b
    · rw [defunctKeys, hcx, except_bind_error] at hks
      cases hks
    · rcases hrest : defunctKeys g tree xs with e | ks'
      · rw [defunctKeys, hcx, except_bind_ok, hrest, except_bind_error] at hks
        cases hks
      · rw [defunctKeys, hcx, except_bind_ok, hrest, except_bind_ok] at hks
        injection hks with hks'
        rcases List.mem_cons.mp hkv with rfl | hkv'
        · rw [hchk] at hcx
          injection hcx with hb
          rw [← hks', ← hb]
          exact List.mem_cons_self _ _
        · have := ih hkv' hrest
          rw [← hks']
          rcases b with _ | _
          · exact this
          · exact List.mem_cons_of_mem _ this

theorem mem_foldl_popKey {ks : List String} {cfg : Config}
    {kv : String × ConfigVal} (h : kv ∈ ks.foldl popKey cfg) : kv ∈ cfg := by
  induction ks generalizing cfg with
  | nil => exact h
  | cons k0 rest ih =>
    have := ih h
    exact List.mem_filter.mp this |>.1

theorem not_mem_foldl_popKey {ks : List String} {k : String} (hk : k ∈ ks) :
    ∀ (cfg : Config) (v : ConfigVal), (k, v) ∉ ks.foldl popKey cfg := by
  induction ks with
  | nil => cases hk
  | cons k0 rest ih =>
    intro cfg v hmem
    rcases List.mem_cons.mp hk with rfl | hk'
    · have hin : (k, v) ∈ popKey cfg k := mem_foldl_popKey hmem
      have := List.mem_filter.mp hin |>.2
      simp at this
    · exact ih hk' (popKey cfg k0) v hmem

/-- C9: scanning a tree holding `models/SD-1/lora/foo.safetensors` creates
the store entry `lora/foo` with `format = "safetensors"` and
`base = "SD-1"`; rescanning after the file is deleted from disk removes the
stale entry; and, in general, the pre-scan pruning pass deletes every
descriptor whose declared local path no longer exists on disk. -/
theorem c9_scan_models_directory_reconciles :
    (scan_models_directory ⟨"", "", "models"⟩
        (.mk "models" [.mk "SD-1" [.mk "lora" [] ["foo.safetensors"]] []] [])
        [] false =
      .ok [("lora/foo", .stanza
        [("path", .str "models/SD-1/lora/foo.safetensors"),
         ("description", .str "lora model foo"),
         ("format", .str "safetensors"),
         ("base", .str "SD-1")])]) ∧
    (scan_models_directory ⟨"", "", "models"⟩
        (.mk "models" [.mk "SD-1" [.mk "lora" [] []] []] [])
        [("lora/foo", .stanza
          [("path", .str "models/SD-1/lora/foo.safetensors"),
           ("description", .str "lora model foo"),
           ("format", .str "safetensors"),
           ("base", .str "SD-1")])] false = .ok []) ∧
    (∀ (gl : Globals) (tree : FSNode) (cfg : Config) (k : String) (st : Stanza)
        (p : String),
      (k, ConfigVal.stanza st) ∈ cfg →
      lookupField st "path" = some (.str p) →
      existsInTree tree (osJoin gl.rootDir p) = false →
      ∀ cfg', delete_defunct_models gl tree cfg = .ok cfg' →
        ∀ v, (k, v) ∉ cfg') := by
  refine ⟨by rfl, by rfl, ?_⟩
  intro gl tree cfg k st p hmem hpath hgone cfg' hok v
  unfold delete_defunct_models at hok
  rcases hks : defunctKeys gl tree cfg with e | ks
  · rw [hks, except_bind_error] at hok
    cases hok
  · rw [hks, except_bind_ok] at hok
    injection hok with hok'
    have hchk : defunctCheck gl tree (k, ConfigVal.stanza st) = .ok true := by
      simp [defunctCheck, hpath, hgone]
    have hkin : k ∈ ks := defunctKeys_mem hmem hchk hks
    rw [← hok']
    exact not_mem_foldl_popKey hkin cfg v

/-- Witness for C9's pruning conjunct at a concrete store whose single
descriptor's path has vanished. -/
theorem c9_witness :
    ("lora/foo", ConfigVal.stanza []) ∉ ([] : Config) :=
  c9_scan_models_directory_reconciles.2.2 ⟨"", "", "models"⟩
    (.mk "models" [.mk "SD-1" [.mk "lora" [] []] []] [])
    [("lora/foo", .stanza
      [("path", .str "models/SD-1/lora/foo.safetensors")])]
    "lora/foo" [("path", .str "models/SD-1/lora/foo.safetensors")]
    "models/SD-1/lora/foo.safetensors" (by simp) (by rfl) (by rfl)
    [] (by rfl) (.stanza [])

/-! ## C8: `set_default_model` leaves at most one default -/

theorem string_eq_of_data {a b : String} (h : a.data = b.data) : a = b := by
  cases a with
  | mk da =>
    cases b with
    | mk db =>
      have h' : da = db := h
      rw [h']

theorem mapExcept_ok_mem {α β ε : Type} {f : α → Except ε β} {l : List α}
    {ys : List β} (h : mapExcept f l = .ok ys) :
    ∀ x ∈ l, ∃ y ∈ ys, f x = .ok y := by
  induction l generalizing ys with
  | nil => intro x hx; cases hx
  | cons a as ih =>
    intro x hx
    rcases hfa : f a with e | y
    · rw [mapExcept, hfa, except_bind_error] at h
      cases h
    · rcases hrest : mapExcept f as with e | ys'
      · rw [mapExcept, hfa, except_bind_ok, hrest, except_bind_error] at h
        cases h
      · rw [mapExcept, hfa, except_bind_ok, hrest, except_bind_ok] at h
        injection h with h'
        rcases List.mem_cons.mp hx with rfl | hx'
        · exact ⟨y, h' ▸ List.mem_cons_self _ _, hfa⟩
        · obtain ⟨y', hy', hfy'⟩ := ih hrest x hx'
          exact ⟨y', h' ▸ List.mem_cons_of_mem _ hy', hfy'⟩

theorem create_key_of_parse_key {k nm : String} {t : SDModelType}
    (h : parse_key k = .ok (nm, t)) : create_key nm t = k := by
  unfold parse_key at h
  split at h
  · cases h
  · rename_i pre suf hsp
    split at h
    · rename_i t' hty
      injection h with h'
      have h1 : String.mk suf = nm := congrArg Prod.fst h'
      have h2 : t' = t := congrArg Prod.snd h'
      have hstr : sdModelTypeStr t' = String.mk pre := sdModelTypeOfString_sound hty
      have hdata : k.data = pre ++ '/' :: suf := splitFirstSlash_eq_some hsp
      apply string_eq_of_data
      rw [create_key_data, ← h1, ← h2, hstr, hdata]
    · cases h

theorem foldl_popStanzaField_eq_map
    (names : List (String × SDModelType)) (cfg : Config) :
    names.foldl (fun c nt => popStanzaField c (create_key nt.1 nt.2) "default")
        cfg =
      cfg.map (fun kv => names.foldl
        (fun kv' nt => popFieldEntry (create_key nt.1 nt.2) "default" kv') kv) := by
  induction names generalizing cfg with
  | nil => simp
  | cons n ns ih =>
    simp only [List.foldl_cons]
    rw [show popStanzaField cfg (create_key n.1 n.2) "default" =
        cfg.map (popFieldEntry (create_key n.1 n.2) "default") from rfl, ih,
      List.map_map]
    rfl

theorem popFieldEntry_fst (key field : String) (kv : String × ConfigVal) :
    (popFieldEntry key field kv).1 = kv.1 := by
  unfold popFieldEntry
  split <;> rfl

theorem foldl_popFieldEntry_fst (names : List (String × SDModelType))
    (kv : String × ConfigVal) :
    (names.foldl
      (fun kv' nt => popFieldEntry (create_key nt.1 nt.2) "default" kv') kv).1 =
      kv.1 := by
  induction names generalizing kv with
  | nil => rfl
  | cons n ns ih => rw [List.foldl_cons, ih, popFieldEntry_fst]

theorem lookupField_stanzaPop_self (st : Stanza) (field : String) :
    lookupField (stanzaPop st field) field = none := by
  induction st with
  | nil => rfl
  | cons fv rest ih =>
    by_cases h : fv.1 = field
    · simpa [stanzaPop, h] using ih
    · simpa [stanzaPop, lookupField, List.find?, h] using ih

theorem hasTrueDefault_popFieldEntry_self {key : String}
    {kv : String × ConfigVal} (h : (kv.1 == key) = true) :
    hasTrueDefault (popFieldEntry key "default" kv).2 = false := by
  unfold popFieldEntry
  rw [if_pos h]
  rcases kv with ⟨k, s | st⟩
  · rfl
  · simp [hasTrueDefault, lookupField_stanzaPop_self]

theorem hasTrueDefault_popFieldEntry_mono {key : String}
    {kv : String × ConfigVal} (h : hasTrueDefault kv.2 = false) :
    hasTrueDefault (popFieldEntry key "default" kv).2 = false := by
  unfold popFieldEntry
  split
  · rcases kv with ⟨k, s | st⟩
    · rfl
    · simp [hasTrueDefault, lookupField_stanzaPop_self]
  · exact h

theorem foldl_popFieldEntry_noDefault
    (names : List (String × SDModelType)) (kv : String × ConfigVal)
    (h : kv.1 ∈ names.map (fun nt => create_key nt.1 nt.2)) :
    hasTrueDefault ((names.foldl
      (fun kv' nt => popFieldEntry (create_key nt.1 nt.2) "default" kv') kv)).2 =
      false := by
  -- once the flag is gone it stays gone under further pops
  have hmono : ∀ (ns : List (String × SDModelType)) (kv' : String × ConfigVal),
      hasTrueDefault kv'.2 = false →
      hasTrueDefault ((ns.foldl
        (fun kv'' nt => popFieldEntry (create_key nt.1 nt.2) "default" kv'') kv')).2 =
        false := by
    intro ns
    induction ns with
    | nil => intro kv' h'; exact h'
    | cons m ms ih =>
      intro kv' h'
      rw [List.foldl_cons]
      exact ih _ (hasTrueDefault_popFieldEntry_mono h')
  induction names generalizing kv with
  | nil => cases h
  | cons n ns ih =>
    rw [List.foldl_cons]
    by_cases hk : (kv.1 == create_key n.1 n.2) = true
    · exact hmono ns _ (hasTrueDefault_popFieldEntry_self hk)
    · have hkv : popFieldEntry (create_key n.1 n.2) "default" kv = kv := by
        unfold popFieldEntry
        rw [if_neg hk]
      rw [hkv]
      apply ih
      rcases List.mem_map.mp h with ⟨nt, hnt, heq⟩
      rcases List.mem_cons.mp hnt with rfl | hnt'
      · exact absurd (by simp [heq]) hk
      · exact List.mem_map.mpr ⟨nt, hnt', heq⟩

theorem foldl_popFieldEntry_cstr (names : List (String × SDModelType))
    (kv : String × ConfigVal) {s : String} (h : kv.2 = ConfigVal.cstr s) :
    names.foldl
      (fun kv' nt => popFieldEntry (create_key nt.1 nt.2) "default" kv') kv = kv := by
  have hfix : ∀ key, popFieldEntry key "default" kv = kv := by
    intro key
    rcases kv with ⟨k1, v1⟩
    dsimp at h
    subst h
    unfold popFieldEntry
    split <;> rfl
  induction names with
  | nil => rfl
  | cons n ns ih =>
    rw [List.foldl_cons, hfix]
    exact ih

theorem countP_le_one_of_key {l : Config} {P : String × ConfigVal → Bool}
    {K : String} (hnd : (l.map Prod.fst).Nodup)
    (h : ∀ kv ∈ l, P kv = true → kv.1 = K) : l.countP P ≤ 1 := by
  induction l with
  | nil => simp
  | cons x xs ih =>
    rw [List.countP_cons]
    have hnd' := List.nodup_cons.mp
      (show (x.1 :: xs.map Prod.fst).Nodup from hnd)
    by_cases hx : P x = true
    · have hxK := h x (List.mem_cons_self _ _) hx
      have hz : xs.countP P = 0 := by
        rw [List.countP_eq_zero]
        intro kv hkv hP
        have h1 : kv.1 = K := h kv (List.mem_cons_of_mem _ hkv) hP
        have hm : kv.1 ∈ xs.map Prod.fst := List.mem_map.mpr ⟨kv, hkv, rfl⟩
        rw [h1.trans hxK.symm] at hm
        exact hnd'.1 hm
      simp [hx, hz]
    · have hle := ih hnd'.2 (fun kv hkv hP => h kv (List.mem_cons_of_mem _ hkv) hP)
      simp [hx]
      omega

/-- C8: after any successful `set_default_model` call on a unique-key store,
at most one descriptor of the affected type carries a truthy `default`
flag, no matter how many did before. -/
theorem c8_set_default_model_at_most_one_default (cfg : Config)
    (model_name : String) (model_type : SDModelType)
    (hnd : (cfg.map Prod.fst).Nodup) (cfg' : Config)
    (h : set_default_model cfg model_name model_type = .ok cfg') :
    cfg'.countP (fun kv => keyHasType kv.1 model_type && hasTrueDefault kv.2) ≤ 1 := by
  unfold set_default_model at h
  by_cases hex : model_exists cfg model_name model_type
  · rw [if_neg (by simp [hex])] at h
    rcases hnames : model_names cfg with e | names
    · rw [hnames, except_bind_error] at h
      cases h
    · rw [hnames, except_bind_ok] at h
      dsimp only at h
      set K := create_key (names.getLast?.getD (model_name, model_type)).1
        (names.getLast?.getD (model_name, model_type)).2 with hK
      unfold setStanzaField at h
      set cfg1 := names.foldl
        (fun c nt => popStanzaField c (create_key nt.1 nt.2) "default") cfg with hcfg1
      rcases hlk : lookupVal cfg1 K with _ | cv
      · rw [hlk] at h; cases h
      · rcases cv with s | st
        · rw [hlk] at h; cases h
        · rw [hlk] at h
          injection h with h'
          -- keys of cfg' are the keys of cfg
          have hkeys : cfg'.map Prod.fst = cfg.map Prod.fst := by
            rw [← h', hcfg1, foldl_popStanzaField_eq_map, List.map_map,
              List.map_map]
            apply List.map_congr_left
            intro kv _
            show (setFieldEntry K "default" (.fbool true) _).1 = kv.1
            have h1 : ∀ w : String × ConfigVal,
                (setFieldEntry K "default" (.fbool true) w).1 = w.1 := by
              intro w
              unfold setFieldEntry
              split <;> rfl
            rw [h1, foldl_popFieldEntry_fst]
          apply countP_le_one_of_key (K := K) (by rw [hkeys]; exact hnd)
          intro kv' hkv' hP
          rw [← h', hcfg1, foldl_popStanzaField_eq_map, List.map_map] at hkv'
          rcases List.mem_map.mp hkv' with ⟨kv0, hkv0, heq⟩
          by_cases hkK : ((names.foldl (fun kv' nt =>
              popFieldEntry (create_key nt.1 nt.2) "default" kv') kv0).1 == K) = true
          · rw [← heq]
            show (setFieldEntry K "default" (.fbool true) _).1 = K
            unfold setFieldEntry
            rw [if_pos hkK]
            simpa using hkK
          · -- untouched by the final assignment: it was stripped of `default`
            exfalso
            have heq2 : kv' = (names.foldl (fun kv' nt =>
                popFieldEntry (create_key nt.1 nt.2) "default" kv') kv0) := by
              rw [← heq]
              show setFieldEntry K "default" (.fbool true) _ = _
              unfold setFieldEntry
              rw [if_neg hkK]
            rcases hv0 : kv0.2 with s | st0
            · -- a plain string value never carries a default flag
              have : hasTrueDefault kv'.2 = false := by
                rw [heq2, foldl_popFieldEntry_cstr names kv0 hv0, hv0]
                rfl
              rw [this, Bool.and_false] at hP
              cases hP
            · -- a stanza key is always in the popped set
              have hfil : kv0 ∈ cfg.filter
                  (fun kv => match kv.2 with
                    | ConfigVal.stanza _ => true
                    | _ => false) := by
                apply List.mem_filter.mpr
                exact ⟨hkv0, by rw [hv0]⟩
              obtain ⟨nt, hnt, hpk⟩ := mapExcept_ok_mem hnames kv0 hfil
              rcases nt with ⟨nm, ty⟩
              have hck : create_key nm ty = kv0.1 := create_key_of_parse_key hpk
              have hmemk : kv0.1 ∈ names.map (fun nt => create_key nt.1 nt.2) :=
                List.mem_map.mpr ⟨(nm, ty), hnt, hck⟩
              have : hasTrueDefault kv'.2 = false := by
                rw [heq2]
                exact foldl_popFieldEntry_noDefault names kv0 hmemk
              rw [this, Bool.and_false] at hP
              cases hP
  · rw [if_pos (by simp [hex])] at h
    cases h

/-- Witness for C8 at a concrete store in which two descriptors carried
`default=true` before the call. -/
theorem c8_witness :
    List.countP
        (fun kv => keyHasType kv.1 SDModelType.diffusers && hasTrueDefault kv.2)
        [("diffusers/a", ConfigVal.stanza [("path", FieldVal.str "x")]),
         ("lora/b", ConfigVal.stanza [("default", FieldVal.fbool true)])] ≤ 1 :=
  c8_set_default_model_at_most_one_default
    [("diffusers/a", .stanza [("default", .fbool true), ("path", .str "x")]),
     ("lora/b", .stanza [("default", .fbool true)])]
    "a" .diffusers (by decide) _ (by rfl)

end InvokeAI
